import Mathlib

/-!
openFrameworks examples: advanced3dExample and vboExample.

A shallow embedding of the two example applications
`examples/3d/advanced3dExample/src/ofApp.cpp` and
`examples/gl/vboExample/src/ofApp.cpp`, and the properties of their
viewport layout, key handling, per-frame draw calls and mesh construction.

Conventions.
* C `int` values are `Int`, and `/` on `int` is `Int.tdiv`; no operation of
  these programs leaves the 32-bit range on the inputs considered.
* Key codes are the character codes of the C character literals
  (`'1'` is 49, `'4'` is 52, `'f'` is 102, `'p'` is 112).
* advanced3dExample stores integers in `float` variables
  (`float xOffset = ofGetWidth() / 3;`).  Such a value is kept as the `Int`
  it denotes, and every conversion to `float` and every `float` product or sum
  is rounded by `f32`, the round-to-nearest-even of single precision (24-bit
  significand).
* vboExample computes its vectors with the framework's `glm::vec2`,
  `glm::vec3` and `ofMap`, none of which is among the sources; their components
  are exact rationals here, so the rounding of the depth `z` inside `ofMap`
  is not represented.
* The first part of the file holds the definitions of both programs, the
  second part the theorems.
-/

namespace Advanced3d

/-! ## Single-precision rounding of integer values -/

/-- Number of low bits single precision drops from a magnitude `a`: the least
`e` with `a < 2 ^ (24 + e)` (the first argument bounds the search, `a` itself
is always enough). -/
def f32Exp : Nat → Nat → Nat
  | 0, _ => 0
  | fuel + 1, a => if a < 2 ^ 24 then 0 else f32Exp fuel (a / 2) + 1

/-- The `float` nearest to the integer `n` (ties to even), as the integer it
denotes.  Magnitudes below `2 ^ 24` are kept exactly; above, the value is
rounded to a multiple of `2 ^ e`.  (Overflow to infinity, beyond `2 ^ 128`, is
outside the range of `int` and not represented.) -/
def f32 (n : Int) : Int :=
  let a := n.natAbs
  let e := f32Exp a a
  let q := a / 2 ^ e
  let r := a % 2 ^ e
  let q1 := if 2 ^ e < 2 * r ∨ (2 * r = 2 ^ e ∧ q % 2 = 1) then q + 1 else q
  Int.sign n * ((q1 * 2 ^ e : Nat) : Int)

/-! ## Data model of advanced3dExample -/

/-- Modelled from the spec: the macro `N_CAMERAS` of `ofApp.h` (the header is
not among the sources).  `setup` fills `cameras[0]` to `cameras[3]` and `draw`
labels `viewGrid[0]` to `viewGrid[3]`: there are four cameras. -/
abbrev N_CAMERAS : Nat := 4

/-- Modelled from the spec: the framework rectangle `ofRectangle` (not among
the sources), four `float` fields.  Every value this program stores in one is
an integer-valued float, kept as the integer. -/
structure ofRectangle where
  x : Int
  y : Int
  width : Int
  height : Int
deriving DecidableEq, Repr

/-- The four camera objects of `ofApp`. -/
inductive Camera
  | camEasyCam
  | camFront
  | camTop
  | camLeft
deriving DecidableEq, Repr

/-- The nodes of the scene a camera can be parented to; the program only ever
uses `nodeSwarm.light`. -/
inductive Node
  | nodeSwarm
  | nodeSwarmLight
  | nodeGrid
deriving DecidableEq, Repr

/-- The member variables of `ofApp` that the callbacks read or write, together
with the parent pointer of each camera (the parent of the framework's
`ofNode`, `none` for a null pointer) and the number of
`ofToggleFullscreen()` calls made so far. -/
structure AppState where
  iMainCamera : Int
  bCamParent : Bool
  parentEasyCam : Option Node
  parentFront : Option Node
  parentTop : Option Node
  parentLeft : Option Node
  viewMain : ofRectangle
  viewGrid : Fin N_CAMERAS → ofRectangle
  fullscreenToggles : Nat

/-- The entries of the array `cameras` as `setup` fills them (lines 56-59). -/
def cameraAt (i : Fin N_CAMERAS) : Camera :=
  match i with
  | 0 => Camera.camEasyCam
  | 1 => Camera.camFront
  | 2 => Camera.camTop
  | 3 => Camera.camLeft

/-- The element `cameras[i]`; `none` outside the array. -/
def cameras (i : Int) : Option Camera :=
  if h : 0 ≤ i ∧ i < (N_CAMERAS : Int) then some (cameraAt ⟨i.toNat, by omega⟩) else none

/-- The element `viewGrid[i]` of the state; `none` outside the array. -/
def viewGridAt (s : AppState) (i : Int) : Option ofRectangle :=
  if h : 0 ≤ i ∧ i < (N_CAMERAS : Int) then
    some (s.viewGrid ⟨i.toNat, by omega⟩)
  else none

/-- The parent pointers of the four cameras. -/
def parents (s : AppState) : List (Option Node) :=
  [s.parentEasyCam, s.parentFront, s.parentTop, s.parentLeft]

/-! ## Operations of advanced3dExample -/

/-- `ofApp::setupViewports` (lines 82-107); `W` and `H` are what
`ofGetWidth()` and `ofGetHeight()` return.  `xOffset` and `yOffset` are
`float` locals initialised from an `int` quotient; `xOffset * 2` and
`yOffset * i` are `float` products, `ofGetHeight()` is converted to the
`float` field `height`. -/
def setupViewports (W H : Int) (s : AppState) : AppState :=
  let xOffset : Int := f32 (Int.tdiv W 3)
  let yOffset : Int := f32 (Int.tdiv H (N_CAMERAS : Int))
  { s with
    viewMain :=
      { x := xOffset, y := 0, width := f32 (xOffset * 2), height := f32 H }
    viewGrid := fun i =>
      { x := 0, y := f32 (yOffset * f32 (i.val : Int)), width := xOffset,
        height := yOffset } }

/-- Modelled from the spec: the parent of a node the framework has just
constructed (`ofNode`, not among the sources): none. -/
def ofNode_initialParent : Option Node := none

/-- `ofApp::setup` (lines 33-79): sets `iMainCamera = 0` and
`bCamParent = false`, fills `cameras` and calls `setupViewports`; it sets no
parent, so the cameras keep the parent they were constructed with.  The
projection parameters of the cameras and the swarm are not part of the
state. -/
def setup (W H : Int) : AppState :=
  setupViewports W H
    { iMainCamera := 0
      bCamParent := false
      parentEasyCam := ofNode_initialParent
      parentFront := ofNode_initialParent
      parentTop := ofNode_initialParent
      parentLeft := ofNode_initialParent
      viewMain := ⟨0, 0, 0, 0⟩
      viewGrid := fun _ => ⟨0, 0, 0, 0⟩
      fullscreenToggles := 0 }

/-- `ofApp::windowResized` (lines 400-402): ignores its arguments and calls
`setupViewports`, which reads the window size `W`, `H` itself. -/
def windowResized (_w _h : Int) (W H : Int) (s : AppState) : AppState :=
  setupViewports W H s

/-- `ofApp::keyPressed` (lines 341-367).  `ofToggleFullscreen()` is a call
into the framework and is counted; a resize it causes reaches the program
later, as a `windowResized` callback. -/
def keyPressed (key : Int) (s : AppState) : AppState :=
  let s1 :=
    if key ≥ ('1'.toNat : Int) ∧ key ≤ ('4'.toNat : Int) then
      { s with iMainCamera := key - ('1'.toNat : Int) }
    else s
  let s2 :=
    if key = ('f'.toNat : Int) then
      { s1 with fullscreenToggles := s1.fullscreenToggles + 1 }
    else s1
  if key = ('p'.toNat : Int) then
    if s2.bCamParent then
      { s2 with parentFront := none, parentTop := none, parentLeft := none,
                bCamParent := false }
    else
      { s2 with parentFront := some Node.nodeSwarmLight,
                parentTop := some Node.nodeSwarmLight,
                parentLeft := some Node.nodeSwarmLight,
                bCamParent := true }
  else s2

/-- The state after `setup` and then the key presses `keys`, in order. -/
def afterKeys (W H : Int) (keys : List Int) : AppState :=
  keys.foldl (fun s k => keyPressed k s) (setup W H)

/-- The link between `bCamParent` and the parents of the three orthographic
cameras that `keyPressed` maintains. -/
def ParentsMatchFlag (s : AppState) : Prop :=
  (s.bCamParent = true ∧ s.parentFront = some Node.nodeSwarmLight ∧
      s.parentTop = some Node.nodeSwarmLight ∧ s.parentLeft = some Node.nodeSwarmLight) ∨
  (s.bCamParent = false ∧ s.parentFront = none ∧ s.parentTop = none ∧ s.parentLeft = none)

/-! ## The calls of one frame -/

/-- The text of the label of line 167,
`"Camera selected: " + ofToString(iMainCamera + 1)`. -/
def cameraSelectedLabel (s : AppState) : String :=
  "Camera selected: " ++ toString (s.iMainCamera + 1)

/-- The framework calls `draw` and `drawScene` make, in the order they are
made, with the arguments that the state determines.  `drawScene i` marks the
entry of a call `drawScene(i)`; `multInverseEasyCamMatrix b` is
`ofMultMatrix(glm::inverse(camEasyCam.getModelViewProjectionMatrix(b)))`,
`drawBox` the `ofDrawBox(0, 0, 0, 2.0f)` of the frustum preview, `drawRay`
the `ofDrawLine(ray[0], ray[1])` of the mouse ray. -/
inductive DrawCmd
  | pushStyle
  | popStyle
  | pushMatrix
  | popMatrix
  | disableDepthTest
  | enableDepthTest
  | setColor (r g b : Nat)
  | setLineWidth (w : Nat)
  | noFill
  | drawRectangle (r : ofRectangle)
  | drawBitmapString (text : String) (x y : Int)
  | cameraBegin (cam : Camera) (viewport : ofRectangle)
  | cameraEnd (cam : Camera)
  | drawScene (cameraIndex : Int)
  | nodeSwarmDraw
  | nodeGridDraw
  | multInverseEasyCamMatrix (boundsToUse : ofRectangle)
  | drawBox
  | drawRay
  | updateMouseRay
deriving DecidableEq, Repr

/-- `ofApp::drawScene` (lines 195-327). -/
def drawScene (s : AppState) (cameraIndex : Int) : List DrawCmd :=
  [DrawCmd.drawScene cameraIndex, DrawCmd.nodeSwarmDraw, DrawCmd.nodeGridDraw] ++
  (if cameraIndex ≠ 0 then
      [DrawCmd.pushStyle, DrawCmd.pushMatrix,
       DrawCmd.multInverseEasyCamMatrix
         (if s.iMainCamera = 0 then s.viewMain else s.viewGrid 0),
       DrawCmd.noFill, DrawCmd.drawBox, DrawCmd.popMatrix, DrawCmd.popStyle]
    else []) ++
  (if s.iMainCamera = 0 ∧ cameraIndex ≠ 0 then
      [DrawCmd.pushStyle, DrawCmd.setColor 100 100 255, DrawCmd.drawRay, DrawCmd.popStyle]
    else [])

/-- The body of `ofApp::draw` (lines 116-193) once `viewGrid[iMainCamera]`
(`selected`) and `cameras[iMainCamera]` (`camMain`) have been read. -/
def drawWith (s : AppState) (selected : ofRectangle) (camMain : Camera) : List DrawCmd :=
  [DrawCmd.pushStyle, DrawCmd.disableDepthTest, DrawCmd.setColor 100 100 100,
   DrawCmd.drawRectangle selected, DrawCmd.enableDepthTest, DrawCmd.setColor 255 255 255] ++
  [DrawCmd.cameraBegin camMain s.viewMain] ++ drawScene s s.iMainCamera ++
  [DrawCmd.updateMouseRay, DrawCmd.cameraEnd camMain] ++
  (List.finRange N_CAMERAS).flatMap (fun i =>
    [DrawCmd.cameraBegin (cameraAt i) (s.viewGrid i)] ++ drawScene s (i.val : Int) ++
    [DrawCmd.cameraEnd (cameraAt i)]) ++
  [DrawCmd.popStyle] ++
  [DrawCmd.pushStyle, DrawCmd.disableDepthTest, DrawCmd.setColor 255 255 255,
   DrawCmd.drawBitmapString "Press keys 1-4 to select a camera for main view"
     (f32 (s.viewMain.x + 20)) 30,
   DrawCmd.drawBitmapString (cameraSelectedLabel s) (f32 (s.viewMain.x + 20)) 50,
   DrawCmd.drawBitmapString "Press 'f' to toggle fullscreen" (f32 (s.viewMain.x + 20)) 70,
   DrawCmd.drawBitmapString "Press 'p' to toggle parents on OrthoCamera's"
     (f32 (s.viewMain.x + 20)) 90,
   DrawCmd.drawBitmapString "EasyCam" (f32 ((s.viewGrid 0).x + 20)) (f32 ((s.viewGrid 0).y + 30)),
   DrawCmd.drawBitmapString "Front" (f32 ((s.viewGrid 1).x + 20)) (f32 ((s.viewGrid 1).y + 30)),
   DrawCmd.drawBitmapString "Top" (f32 ((s.viewGrid 2).x + 20)) (f32 ((s.viewGrid 2).y + 30)),
   DrawCmd.drawBitmapString "Left" (f32 ((s.viewGrid 3).x + 20)) (f32 ((s.viewGrid 3).y + 30)),
   DrawCmd.setLineWidth 5, DrawCmd.noFill, DrawCmd.setColor 255 255 255] ++
  (List.finRange N_CAMERAS).map (fun i => DrawCmd.drawRectangle (s.viewGrid i)) ++
  [DrawCmd.drawRectangle s.viewMain, DrawCmd.popStyle]

/-- `ofApp::draw` (lines 116-193): the calls of one frame, `none` when
`iMainCamera` is outside the arrays `viewGrid` and `cameras`. -/
def draw (s : AppState) : Option (List DrawCmd) := do
  let selected ← viewGridAt s s.iMainCamera
  let camMain ← cameras s.iMainCamera
  pure (drawWith s selected camMain)

/-- The arguments of the `drawScene` calls of a frame, in order. -/
def sceneCalls (t : List DrawCmd) : List Int :=
  t.filterMap fun c => match c with
    | DrawCmd.drawScene i => some i
    | _ => none

/-- The views of a frame: each `cameras[..]->begin(viewport)` that is
directly followed by a call `drawScene(cameraIndex)`, as
`(camera, viewport, cameraIndex)`. -/
def viewCalls : List DrawCmd → List (Camera × ofRectangle × Int)
  | DrawCmd.cameraBegin cam vp :: DrawCmd.drawScene c :: rest => (cam, vp, c) :: viewCalls rest
  | _ :: rest => viewCalls rest
  | [] => []

/-- The bounds of the frustum previews of a frame, in order. -/
def frustumBounds (t : List DrawCmd) : List ofRectangle :=
  t.filterMap fun c => match c with
    | DrawCmd.multInverseEasyCamMatrix b => some b
    | _ => none

/-- Is the call the box of a frustum preview? -/
def isDrawBox : DrawCmd → Bool
  | DrawCmd.drawBox => true
  | _ => false

/-- Is the call the line of the mouse ray? -/
def isDrawRay : DrawCmd → Bool
  | DrawCmd.drawRay => true
  | _ => false

end Advanced3d

namespace VboExample

/-! ## Data model of vboExample -/

/-- Modelled from the spec: the vector `glm::vec3` (not among the sources),
with exact components. -/
abbrev Vec3 := ℚ × ℚ × ℚ

/-- Modelled from the spec: the vector `glm::vec2` (not among the sources),
with exact components. -/
abbrev Vec2 := ℚ × ℚ

/-- Modelled from the spec: the framework colour `ofColor` (not among the
sources), four `unsigned char` channels, each in 0..255. -/
structure ofColor where
  r : Nat
  g : Nat
  b : Nat
  a : Nat

/-- Modelled from the spec: what the program reads of the framework image
`ofImage` (not among the sources): its size (`getWidth()`, `getHeight()`) and
the colour of each pixel. -/
structure ofImage where
  width : Nat
  height : Nat
  getColor : Int → Int → ofColor

/-- Modelled from the spec: what the program writes of the framework mesh
`ofMesh` (not among the sources): the vertices and the texture coordinates, in
the order they were added. -/
structure ofMesh where
  vertices : List Vec3
  texCoords : List Vec2
deriving DecidableEq

/-! ## Operations of vboExample -/

/-- Modelled from the spec: `ofMesh::addVertex` appends one vertex. -/
def addVertex (mesh : ofMesh) (v : Vec3) : ofMesh :=
  { mesh with vertices := mesh.vertices ++ [v] }

/-- Modelled from the spec: `ofMesh::addTexCoord` appends one texture
coordinate. -/
def addTexCoord (mesh : ofMesh) (t : Vec2) : ofMesh :=
  { mesh with texCoords := mesh.texCoords ++ [t] }

/-- `ofApp::addFace` with three points (lines 15-19). -/
def addFace (mesh : ofMesh) (a b c : Vec3) : ofMesh :=
  addVertex (addVertex (addVertex mesh a) b) c

/-- `ofApp::addFace` with four points (lines 22-25). -/
def addFace4 (mesh : ofMesh) (a b c d : Vec3) : ofMesh :=
  addFace (addFace mesh a b c) a c d

/-- `ofApp::addTexCoords` with three points (lines 28-32). -/
def addTexCoords (mesh : ofMesh) (a b c : Vec2) : ofMesh :=
  addTexCoord (addTexCoord (addTexCoord mesh a) b) c

/-- `ofApp::addTexCoords` with four points (lines 35-38). -/
def addTexCoords4 (mesh : ofMesh) (a b c d : Vec2) : ofMesh :=
  addTexCoords (addTexCoords mesh a b c) a c d

/-- Modelled from the spec: the framework's `ofMap` (not among the sources),
the linear map that takes `inputMin` to `outputMin` and `inputMax` to
`outputMax`, in exact arithmetic; for the arguments of `getVertexFromImg` its
value is `-480 + 960 * a / 255`. -/
def ofMap (value inputMin inputMax outputMin outputMax : ℚ) : ℚ :=
  (value - inputMin) / (inputMax - inputMin) * (outputMax - outputMin) + outputMin

/-- `ofApp::getVertexFromImg` (lines 45-53). -/
def getVertexFromImg (img : ofImage) (x y : Int) : Vec3 :=
  let color := img.getColor x y
  if color.a > 0 then
    let z := ofMap (color.a : ℚ) 0 255 (-480) 480
    ((x : ℚ) - (img.width : ℚ) / 2, (y : ℚ) - (img.height : ℚ) / 2, z)
  else (0, 0, 0)

/-- The local `skip` of `setup` (line 70), the resolution of the mesh. -/
def skip : Int := 10

/-- The test of line 96: none of the four corner vertices is `zero`. -/
def cellAccepted (img : ofImage) (x y : Int) : Prop :=
  getVertexFromImg img x y ≠ (0, 0, 0) ∧ getVertexFromImg img (x + skip) y ≠ (0, 0, 0) ∧
  getVertexFromImg img x (y + skip) ≠ (0, 0, 0) ∧
  getVertexFromImg img (x + skip) (y + skip) ≠ (0, 0, 0)

instance (img : ofImage) (x y : Int) : Decidable (cellAccepted img x y) := by
  unfold cellAccepted
  infer_instance

/-- Lines 101-106: `t /= imageSize` when normalized texture coordinates are
enabled, `t` otherwise. -/
def normalizeIf (normalized : Bool) (imageSize t : Vec2) : Vec2 :=
  if normalized then (t.1 / imageSize.1, t.2 / imageSize.2) else t

/-- The body of the two loops of `setup` (lines 86-109) for the cell with
top-left pixel `(x, y)`; `normalized` is what
`ofGetUsingNormalizedTexCoords()` returns. -/
def cellBody (img : ofImage) (normalized : Bool) (x y : Int) (mesh : ofMesh) : ofMesh :=
  let imageSize : Vec2 := ((img.width : ℚ), (img.height : ℚ))
  let nw := getVertexFromImg img x y
  let ne := getVertexFromImg img (x + skip) y
  let sw := getVertexFromImg img x (y + skip)
  let se := getVertexFromImg img (x + skip) (y + skip)
  let nwi : Vec2 := ((x : ℚ), (y : ℚ))
  let nei : Vec2 := (((x + skip : Int) : ℚ), (y : ℚ))
  let swi : Vec2 := ((x : ℚ), ((y + skip : Int) : ℚ))
  let sei : Vec2 := (((x + skip : Int) : ℚ), ((y + skip : Int) : ℚ))
  if cellAccepted img x y then
    addTexCoords4 (addFace4 mesh nw ne se sw)
      (normalizeIf normalized imageSize nwi) (normalizeIf normalized imageSize nei)
      (normalizeIf normalized imageSize sei) (normalizeIf normalized imageSize swi)
  else mesh

/-- The inner loop of `setup` (line 79), entered with the current `x`. -/
def rowLoop (img : ofImage) (normalized : Bool) (y : Int) (x : Int) (mesh : ofMesh) : ofMesh :=
  if x < (img.width : Int) - skip then
    rowLoop img normalized y (x + skip) (cellBody img normalized x y mesh)
  else mesh
termination_by ((img.width : Int) - skip - x).toNat
decreasing_by
  simp only [skip] at *
  omega

/-- The outer loop of `setup` (line 78), entered with the current `y`. -/
def colLoop (img : ofImage) (normalized : Bool) (y : Int) (mesh : ofMesh) : ofMesh :=
  if y < (img.height : Int) - skip then
    colLoop img normalized (y + skip) (rowLoop img normalized y 0 mesh)
  else mesh
termination_by ((img.height : Int) - skip - y).toNat
decreasing_by
  simp only [skip] at *
  omega

/-- The two meshes of `ofApp`. -/
structure App where
  mesh : ofMesh
  vboMesh : ofMesh

/-- `ofApp::setup` (lines 56-114) for the loaded image `img`: builds `mesh`
from the empty mesh and copies it to `vboMesh`. -/
def setup (img : ofImage) (normalized : Bool) : App :=
  let mesh := colLoop img normalized 0 { vertices := [], texCoords := [] }
  { mesh := mesh, vboMesh := mesh }

/-- A 21 by 21 image whose pixels all have alpha `a`. -/
def flatImage (a : Nat) : ofImage :=
  { width := 21, height := 21, getColor := fun _ _ => ⟨0, 0, 0, a⟩ }

end VboExample

/-! # Theorems: advanced3dExample -/

namespace Advanced3d

/-! ## Single-precision rounding -/

theorem f32Exp_small (fuel a : Nat) (h : a < 2 ^ 24) : f32Exp fuel a = 0 := by
  cases fuel with
  | zero => rfl
  | succ k => unfold f32Exp; rw [if_pos h]

theorem f32Exp_one (a : Nat) (h1 : 2 ^ 24 ≤ a) (h2 : a < 2 ^ 25) : f32Exp a a = 1 := by
  obtain ⟨k, rfl⟩ : ∃ k, a = k + 1 := ⟨a - 1, by omega⟩
  unfold f32Exp
  rw [if_neg (by omega), f32Exp_small _ _ (by omega)]

/-- Single precision holds every integer of magnitude at most `2 ^ 24`. -/
theorem f32_exact (n : Int) (h : n.natAbs ≤ 2 ^ 24) : f32 n = n := by
  rcases Nat.lt_or_ge n.natAbs (2 ^ 24) with hlt | hge
  · unfold f32
    simp only [f32Exp_small _ _ hlt, pow_zero, Nat.mod_one, Nat.div_one, mul_zero, mul_one]
    have hc : ¬ (1 < 0 ∨ (0 = 1 ∧ n.natAbs % 2 = 1)) := by omega
    rw [if_neg hc]
    exact Int.sign_mul_natAbs n
  · have ha : n.natAbs = 2 ^ 24 := le_antisymm h hge
    rcases Int.natAbs_eq n with hn | hn
    · rw [hn, ha]; decide
    · rw [hn, ha]; decide

/-- Single precision holds every even integer of magnitude at most
`2 ^ 25`. -/
theorem f32_exact_even (n : Int) (h : n.natAbs ≤ 2 ^ 25) (he : n.natAbs % 2 = 0) :
    f32 n = n := by
  rcases Nat.lt_or_ge n.natAbs (2 ^ 24) with hlt | hge
  · exact f32_exact n (by omega)
  · rcases Nat.lt_or_ge n.natAbs (2 ^ 25) with hlt2 | hge2
    · unfold f32
      simp only [f32Exp_one _ hge hlt2, pow_one, he, mul_zero]
      have hc : ¬ (2 < 0 ∨ (0 = 2 ∧ n.natAbs / 2 % 2 = 1)) := by omega
      rw [if_neg hc]
      have hq : n.natAbs / 2 * 2 = n.natAbs := by omega
      rw [hq]
      exact Int.sign_mul_natAbs n
    · have ha : n.natAbs = 2 ^ 25 := le_antisymm h hge2
      rcases Int.natAbs_eq n with hn | hn
      · rw [hn, ha]; decide
      · rw [hn, ha]; decide

theorem f32_exact_nonneg (n : Int) (h0 : 0 ≤ n) (h : n ≤ 2 ^ 24) : f32 n = n := by
  apply f32_exact
  omega

theorem f32Exp_spec (fuel a : Nat) :
    (a < 2 ^ (24 + fuel) → a / 2 ^ (f32Exp fuel a) < 2 ^ 24) ∧
    (f32Exp fuel a = 0 ∨ 2 ^ (23 + f32Exp fuel a) ≤ a) := by
  induction fuel generalizing a with
  | zero =>
    refine ⟨fun h => ?_, Or.inl rfl⟩
    simpa [f32Exp] using h
  | succ k ih =>
    unfold f32Exp
    by_cases h : a < 2 ^ 24
    · rw [if_pos h]
      exact ⟨fun _ => by simpa using h, Or.inl rfl⟩
    · rw [if_neg h]
      obtain ⟨ih1, ih2⟩ := ih (a / 2)
      constructor
      · intro ha
        have h2 : a / 2 < 2 ^ (24 + k) := by
          have : (2 : Nat) ^ (24 + (k + 1)) = 2 * 2 ^ (24 + k) := by ring
          omega
        have := ih1 h2
        rwa [pow_succ, mul_comm, ← Nat.div_div_eq_div_mul]
      · right
        rcases ih2 with h0 | hge
        · rw [h0]
          have : (2 : Nat) ^ (23 + (0 + 1)) = 2 ^ 24 := by norm_num
          omega
        · have : (2 : Nat) ^ (23 + (f32Exp k (a / 2) + 1)) = 2 * 2 ^ (23 + f32Exp k (a / 2)) := by
            ring
          omega

/-- What `f32` computes: a value `k * 2 ^ e` with a significand `k` of at most
24 bits (`k <= 2 ^ 24`, the bound being reached when rounding carries into the
next binade), at most half a unit `2 ^ e` away from `n`, where the unit is 1
unless `2 ^ (23 + e) <= |n|`. -/
theorem f32_spec (n : Int) :
    ∃ k e : Nat, k ≤ 2 ^ 24 ∧ (f32 n).natAbs = k * 2 ^ e ∧
      2 * (f32 n - n).natAbs ≤ 2 ^ e ∧ (e = 0 ∨ 2 ^ (23 + e) ≤ n.natAbs) := by
  by_cases hn : n = 0
  · subst hn
    exact ⟨0, 0, by norm_num, by decide, by decide, Or.inl rfl⟩
  obtain ⟨hq, he⟩ := f32Exp_spec n.natAbs n.natAbs
  have hfuel : n.natAbs < 2 ^ (24 + n.natAbs) := by
    calc n.natAbs < 2 ^ n.natAbs := Nat.lt_two_pow _
      _ ≤ 2 ^ (24 + n.natAbs) := Nat.pow_le_pow_right (by norm_num) (by omega)
  have hq := hq hfuel
  have hpos : 0 < 2 ^ f32Exp n.natAbs n.natAbs := by positivity
  have hdm := Nat.div_add_mod n.natAbs (2 ^ f32Exp n.natAbs n.natAbs)
  have hr := Nat.mod_lt n.natAbs hpos
  have hsign : (Int.sign n).natAbs = 1 := by simp [Int.natAbs_sign, hn]
  have key : ∀ m : Nat, (Int.sign n * (m : Int)).natAbs = m ∧
      (Int.sign n * (m : Int) - n).natAbs = ((m : Int) - (n.natAbs : Int)).natAbs := by
    intro m
    constructor
    · rw [Int.natAbs_mul, hsign, one_mul, Int.natAbs_ofNat]
    · have h1 : Int.sign n * (m : Int) - n = Int.sign n * ((m : Int) - (n.natAbs : Int)) := by
        rw [mul_sub, Int.sign_mul_natAbs]
      rw [h1, Int.natAbs_mul, hsign, one_mul]
  by_cases hc : 2 ^ f32Exp n.natAbs n.natAbs < 2 * (n.natAbs % 2 ^ f32Exp n.natAbs n.natAbs) ∨
      (2 * (n.natAbs % 2 ^ f32Exp n.natAbs n.natAbs) = 2 ^ f32Exp n.natAbs n.natAbs ∧
        n.natAbs / 2 ^ f32Exp n.natAbs n.natAbs % 2 = 1)
  · have hf : f32 n = Int.sign n *
        (((n.natAbs / 2 ^ f32Exp n.natAbs n.natAbs + 1) * 2 ^ f32Exp n.natAbs n.natAbs : Nat) :
          Int) := by
      unfold f32
      simp only []
      rw [if_pos hc]
    refine ⟨n.natAbs / 2 ^ f32Exp n.natAbs n.natAbs + 1, f32Exp n.natAbs n.natAbs, by omega,
      ?_, ?_, he⟩
    · rw [hf]; exact (key _).1
    · rw [hf, (key _).2]
      generalize 2 ^ f32Exp n.natAbs n.natAbs = p at *
      generalize n.natAbs / p = q at *
      generalize n.natAbs % p = r at *
      have hm : (q + 1) * p = p * q + p := by ring
      rw [hm]
      omega
  · have hf : f32 n = Int.sign n *
        (((n.natAbs / 2 ^ f32Exp n.natAbs n.natAbs) * 2 ^ f32Exp n.natAbs n.natAbs : Nat) :
          Int) := by
      unfold f32
      simp only []
      rw [if_neg hc]
    refine ⟨n.natAbs / 2 ^ f32Exp n.natAbs n.natAbs, f32Exp n.natAbs n.natAbs, by omega,
      ?_, ?_, he⟩
    · rw [hf]; exact (key _).1
    · rw [hf, (key _).2]
      generalize 2 ^ f32Exp n.natAbs n.natAbs = p at *
      generalize n.natAbs / p = q at *
      generalize n.natAbs % p = r at *
      have hm : q * p = p * q := by ring
      rw [hm]
      omega

/-- No `float` holds 16777217 or 50331651 / 3: a value `k * 2 ^ e` with a
24-bit significand `k` that is odd is below `2 ^ 24`. -/
theorem float_cannot_hold_16777217 :
    ¬ ∃ k e : Nat, k < 2 ^ 24 ∧ k * 2 ^ e = 16777217 := by
  rintro ⟨k, e, hk, h⟩
  cases e with
  | zero => simp at h; omega
  | succ e =>
    have : k * 2 ^ (e + 1) = 2 * (k * 2 ^ e) := by ring
    omega

/-- Sample values of the rounding: the first integer single precision cannot
hold, a tie that goes up to the even significand, ties and roundings with a
unit in the last place of 4, and the largest `int`. -/
theorem f32_samples :
    f32 16777216 = 16777216 ∧ f32 16777217 = 16777216 ∧ f32 16777219 = 16777220 ∧
    f32 33554450 = 33554448 ∧ f32 33554453 = 33554452 ∧ f32 (-33554455) = -33554456 ∧
    f32 2147483647 = 2147483648 := by
  decide

/-! ## Key handling -/

theorem keyPressed_iMainCamera (k : Int) (s : AppState) :
    (keyPressed k s).iMainCamera =
      if k ≥ 49 ∧ k ≤ 52 then k - 49 else s.iMainCamera := by
  unfold keyPressed
  simp only [Char.reduceToNat, Nat.cast_ofNat]
  split_ifs <;> rfl

theorem keyPressed_views (k : Int) (s : AppState) :
    (keyPressed k s).viewMain = s.viewMain ∧ (keyPressed k s).viewGrid = s.viewGrid := by
  unfold keyPressed
  simp only [Char.reduceToNat, Nat.cast_ofNat]
  split_ifs <;> exact ⟨rfl, rfl⟩

theorem keyPressed_not_p (k : Int) (s : AppState) (hk : k ≠ 112) :
    (keyPressed k s).bCamParent = s.bCamParent ∧ parents (keyPressed k s) = parents s := by
  unfold keyPressed
  simp only [Char.reduceToNat, Nat.cast_ofNat, if_neg hk]
  split_ifs <;> exact ⟨rfl, rfl⟩

/-- Claim C1: for every state and every key code `k` with `'1' <= k <= '4'`,
`keyPressed(k)` sets `iMainCamera` to `k - '1'`, so that the label
`iMainCamera + 1` is the digit pressed, and leaves `bCamParent`, `viewMain`
and `viewGrid` unchanged; for every other key code `iMainCamera` is unchanged;
`'1'` selects `cameras[0]`, the EasyCam, `'2'` the front, `'3'` the top and
`'4'` the left camera, and the label drawn reads "Camera selected: " followed
by the digit. -/
theorem keyPressed_selects_main_camera (s : AppState) (k : Int) :
    ((('1'.toNat : Int) ≤ k ∧ k ≤ ('4'.toNat : Int)) →
        (keyPressed k s).iMainCamera = k - ('1'.toNat : Int) ∧
        (keyPressed k s).iMainCamera + 1 = k - ('0'.toNat : Int) ∧
        (keyPressed k s).bCamParent = s.bCamParent ∧
        (keyPressed k s).viewMain = s.viewMain ∧
        (keyPressed k s).viewGrid = s.viewGrid) ∧
    (¬ (('1'.toNat : Int) ≤ k ∧ k ≤ ('4'.toNat : Int)) →
        (keyPressed k s).iMainCamera = s.iMainCamera) ∧
    (cameras (keyPressed ('1'.toNat : Int) s).iMainCamera = some Camera.camEasyCam ∧
      cameras (keyPressed ('2'.toNat : Int) s).iMainCamera = some Camera.camFront ∧
      cameras (keyPressed ('3'.toNat : Int) s).iMainCamera = some Camera.camTop ∧
      cameras (keyPressed ('4'.toNat : Int) s).iMainCamera = some Camera.camLeft) ∧
    (cameraSelectedLabel (keyPressed ('1'.toNat : Int) s) = "Camera selected: 1" ∧
      cameraSelectedLabel (keyPressed ('2'.toNat : Int) s) = "Camera selected: 2" ∧
      cameraSelectedLabel (keyPressed ('3'.toNat : Int) s) = "Camera selected: 3" ∧
      cameraSelectedLabel (keyPressed ('4'.toNat : Int) s) = "Camera selected: 4") := by
  simp only [Char.reduceToNat, Nat.cast_ofNat]
  refine ⟨?_, ?_, ?_, ?_⟩
  · intro h
    have hp : k ≠ 112 := by omega
    have hi := keyPressed_iMainCamera k s
    rw [if_pos ⟨h.1, h.2⟩] at hi
    refine ⟨hi, ?_, (keyPressed_not_p k s hp).1, (keyPressed_views k s).1,
      (keyPressed_views k s).2⟩
    rw [hi]; ring
  · intro h
    have hi := keyPressed_iMainCamera k s
    rw [if_neg (fun hc => h ⟨hc.1, hc.2⟩)] at hi
    exact hi
  · simp only [keyPressed_iMainCamera]
    refine ⟨?_, ?_, ?_, ?_⟩ <;> (rw [if_pos (by decide)]; decide)
  · unfold cameraSelectedLabel
    simp only [keyPressed_iMainCamera]
    refine ⟨?_, ?_, ?_, ?_⟩ <;> (rw [if_pos (by decide)]; decide)

/-- Pressing `'2'` after `setup` in a 1024 by 768 window makes the front
camera (index 1) the main camera and keeps the flag and the viewports. -/
theorem keyPressed_selects_main_camera_witness :
    (keyPressed ('2'.toNat : Int) (setup 1024 768)).iMainCamera =
        ('2'.toNat : Int) - ('1'.toNat : Int) ∧
    (keyPressed ('2'.toNat : Int) (setup 1024 768)).iMainCamera + 1 =
        ('2'.toNat : Int) - ('0'.toNat : Int) ∧
    (keyPressed ('2'.toNat : Int) (setup 1024 768)).bCamParent = (setup 1024 768).bCamParent ∧
    (keyPressed ('2'.toNat : Int) (setup 1024 768)).viewMain = (setup 1024 768).viewMain ∧
    (keyPressed ('2'.toNat : Int) (setup 1024 768)).viewGrid = (setup 1024 768).viewGrid :=
  (keyPressed_selects_main_camera (setup 1024 768) ('2'.toNat : Int)).1 ⟨by decide, by decide⟩

end Advanced3d

namespace Advanced3d

/-! ## Viewport layout -/

/-- Claim C2, amended: for every window size `(W, H)` with
`0 <= W <= 50331650` and `0 <= H <= 16777216` (the sizes whose quotient
`W / 3` and whose height `H` single precision holds exactly), after
`setupViewports` `viewMain = (x = W/3, y = 0, width = 2*(W/3), height = H)` and
`viewGrid[i] = (x = 0, y = i*(H/4), width = W/3, height = H/4)` for
`i = 0..3`, with `/` the truncating integer division; hence the four grid
cells have equal size, the bottom edge of cell `i` is the top edge of cell
`i+1`, the right edge of the grid column is the left edge of `viewMain`, and
`viewMain` is exactly twice as wide as a grid cell. -/
theorem setupViewports_layout (W H : Int) (s : AppState)
    (hW0 : 0 ≤ W) (hW : W ≤ 50331650) (hH0 : 0 ≤ H) (hH : H ≤ 16777216) :
    (setupViewports W H s).viewMain = ⟨Int.tdiv W 3, 0, 2 * Int.tdiv W 3, H⟩ ∧
    (∀ i : Fin N_CAMERAS, (setupViewports W H s).viewGrid i =
        ⟨0, (i.val : Int) * Int.tdiv H 4, Int.tdiv W 3, Int.tdiv H 4⟩) ∧
    (∀ i j : Fin N_CAMERAS,
        ((setupViewports W H s).viewGrid i).width =
          ((setupViewports W H s).viewGrid j).width ∧
        ((setupViewports W H s).viewGrid i).height =
          ((setupViewports W H s).viewGrid j).height) ∧
    (∀ i j : Fin N_CAMERAS, j.val = i.val + 1 →
        ((setupViewports W H s).viewGrid i).y + ((setupViewports W H s).viewGrid i).height =
          ((setupViewports W H s).viewGrid j).y) ∧
    (∀ i : Fin N_CAMERAS,
        ((setupViewports W H s).viewGrid i).x + ((setupViewports W H s).viewGrid i).width =
          (setupViewports W H s).viewMain.x) ∧
    (∀ i : Fin N_CAMERAS,
        (setupViewports W H s).viewMain.width =
          2 * ((setupViewports W H s).viewGrid i).width) := by
  have hx : Int.tdiv W 3 = W / 3 := Int.tdiv_eq_ediv hW0 (by norm_num)
  have hy : Int.tdiv H 4 = H / 4 := Int.tdiv_eq_ediv hH0 (by norm_num)
  have e1 : f32 (W / 3) = W / 3 := f32_exact_nonneg _ (by omega) (by omega)
  have e2 : f32 (W / 3 * 2) = W / 3 * 2 := f32_exact_even _ (by omega) (by omega)
  have e3 : f32 H = H := f32_exact_nonneg _ hH0 (by omega)
  have e4 : f32 (H / 4) = H / 4 := f32_exact_nonneg _ (by omega) (by omega)
  have e5 : ∀ i : Fin N_CAMERAS, f32 ((i.val : Int)) = (i.val : Int) := fun i =>
    f32_exact_nonneg _ (by omega) (by have hi : i.val < 4 := i.isLt; omega)
  have e6 : ∀ i : Fin N_CAMERAS, f32 (H / 4 * (i.val : Int)) = (i.val : Int) * (H / 4) := by
    intro i
    have hi : i.val < 4 := i.isLt
    have hi3 : (i.val : Int) ≤ 3 := by omega
    have hq : 0 ≤ H / 4 ∧ H / 4 ≤ 2 ^ 22 := by omega
    rw [f32_exact_nonneg _ (by positivity) (by nlinarith [hq.1, hq.2])]
    ring
  have vm : (setupViewports W H s).viewMain = ⟨Int.tdiv W 3, 0, 2 * Int.tdiv W 3, H⟩ := by
    simp only [setupViewports, hx, e1, e2, e3]
    congr 1; ring
  have vg : ∀ i : Fin N_CAMERAS, (setupViewports W H s).viewGrid i =
      ⟨0, (i.val : Int) * Int.tdiv H 4, Int.tdiv W 3, Int.tdiv H 4⟩ := by
    intro i
    simp only [setupViewports, hx, hy, e1, e4, e5, e6, Nat.cast_ofNat]
  refine ⟨vm, vg, ?_, ?_, ?_, ?_⟩
  · intro i j; simp only [vg]; exact ⟨trivial, trivial⟩
  · intro i j hij; simp only [vg, hij]; push_cast; ring
  · intro i; simp only [vg, vm]; ring
  · intro i; simp only [vg, vm]

/-- The layout of a 1024 by 768 window, and of the largest window the
amended claim covers. -/
theorem setupViewports_layout_witness :
    ((0 : Int) ≤ 1024 ∧ (1024 : Int) ≤ 50331650 ∧ (0 : Int) ≤ 768 ∧ (768 : Int) ≤ 16777216) ∧
    (setupViewports 1024 768 (setup 0 0)).viewMain =
      ⟨Int.tdiv 1024 3, 0, 2 * Int.tdiv 1024 3, 768⟩ ∧
    (setupViewports 50331650 16777216 (setup 0 0)).viewMain =
      ⟨Int.tdiv 50331650 3, 0, 2 * Int.tdiv 50331650 3, 16777216⟩ :=
  ⟨by decide,
   (setupViewports_layout 1024 768 (setup 0 0) (by decide) (by decide) (by decide)
      (by decide)).1,
   (setupViewports_layout 50331650 16777216 (setup 0 0) (by decide) (by decide) (by decide)
      (by decide)).1⟩

/-- Claim C2 as stated fails: in a window 50331651 wide `W / 3` is 16777217,
which `float xOffset` cannot hold, so `viewMain.x` is 16777216; in a window
16777217 high `viewMain.height` is 16777216. -/
theorem setupViewports_layout_counterexample :
    ((0 : Int) ≤ 50331651 ∧ (0 : Int) ≤ 768 ∧
      (setupViewports 50331651 768 (setup 0 0)).viewMain ≠
        ⟨Int.tdiv 50331651 3, 0, 2 * Int.tdiv 50331651 3, 768⟩ ∧
      (setupViewports 50331651 768 (setup 0 0)).viewMain = ⟨16777216, 0, 33554432, 768⟩) ∧
    ((0 : Int) ≤ 1024 ∧ (0 : Int) ≤ 16777217 ∧
      (setupViewports 1024 16777217 (setup 0 0)).viewMain ≠
        ⟨Int.tdiv 1024 3, 0, 2 * Int.tdiv 1024 3, 16777217⟩ ∧
      (setupViewports 1024 16777217 (setup 0 0)).viewMain = ⟨341, 0, 682, 16777216⟩) := by
  decide

/-! ## Parents of the orthographic cameras -/

theorem parentsMatchFlag_setup (W H : Int) : ParentsMatchFlag (setup W H) :=
  Or.inr ⟨rfl, rfl, rfl, rfl⟩

theorem parentsMatchFlag_keyPressed (k : Int) (s : AppState) (h : ParentsMatchFlag s) :
    ParentsMatchFlag (keyPressed k s) := by
  unfold ParentsMatchFlag at h ⊢
  unfold keyPressed
  simp only [Char.reduceToNat, Nat.cast_ofNat]
  rcases h with ⟨hb, h1, h2, h3⟩ | ⟨hb, h1, h2, h3⟩ <;>
    split_ifs <;> simp_all

theorem parentsMatchFlag_afterKeys (W H : Int) (keys : List Int) :
    ParentsMatchFlag (afterKeys W H keys) := by
  unfold afterKeys
  generalize hs : setup W H = s0
  have h0 : ParentsMatchFlag s0 := hs ▸ parentsMatchFlag_setup W H
  clear hs
  induction keys generalizing s0 with
  | nil => exact h0
  | cons k ks ih => exact ih _ (parentsMatchFlag_keyPressed k s0 h0)

theorem keyPressed_p_flips (s : AppState) :
    (keyPressed ('p'.toNat : Int) s).bCamParent = !s.bCamParent := by
  unfold keyPressed
  simp only [Char.reduceToNat, Nat.cast_ofNat]
  cases hb : s.bCamParent <;> simp [hb]

theorem keyPressed_p_twice (s : AppState) (h : ParentsMatchFlag s) :
    parents (keyPressed ('p'.toNat : Int) (keyPressed ('p'.toNat : Int) s)) = parents s ∧
    (keyPressed ('p'.toNat : Int) (keyPressed ('p'.toNat : Int) s)).bCamParent =
      s.bCamParent := by
  unfold ParentsMatchFlag at h
  unfold keyPressed parents
  simp only [Char.reduceToNat, Nat.cast_ofNat]
  rcases h with ⟨hb, h1, h2, h3⟩ | ⟨hb, h1, h2, h3⟩ <;> simp [hb, h1, h2, h3]

/-- Claim C3: on every state reachable from `setup()` by any sequence of
`keyPressed` calls, `bCamParent` is true iff `camFront`, `camTop` and
`camLeft` all have `nodeSwarm.light` as parent, and false iff all three have
no parent; every `keyPressed('p')` flips `bCamParent`, and two consecutive
`'p'` presses restore the previous parents and flag; no key other than `'p'`
changes `bCamParent` or the parent of any camera. -/
theorem p_toggles_ortho_camera_parents (W H : Int) (keys : List Int) :
    ((afterKeys W H keys).bCamParent = true ↔
      ((afterKeys W H keys).parentFront = some Node.nodeSwarmLight ∧
       (afterKeys W H keys).parentTop = some Node.nodeSwarmLight ∧
       (afterKeys W H keys).parentLeft = some Node.nodeSwarmLight)) ∧
    ((afterKeys W H keys).bCamParent = false ↔
      ((afterKeys W H keys).parentFront = none ∧
       (afterKeys W H keys).parentTop = none ∧
       (afterKeys W H keys).parentLeft = none)) ∧
    (∀ s : AppState, (keyPressed ('p'.toNat : Int) s).bCamParent = !s.bCamParent) ∧
    (parents (keyPressed ('p'.toNat : Int) (keyPressed ('p'.toNat : Int) (afterKeys W H keys))) =
        parents (afterKeys W H keys) ∧
      (keyPressed ('p'.toNat : Int)
          (keyPressed ('p'.toNat : Int) (afterKeys W H keys))).bCamParent =
        (afterKeys W H keys).bCamParent) ∧
    (∀ (s : AppState) (k : Int), k ≠ ('p'.toNat : Int) →
      (keyPressed k s).bCamParent = s.bCamParent ∧ parents (keyPressed k s) = parents s) := by
  have hinv := parentsMatchFlag_afterKeys W H keys
  refine ⟨?_, ?_, keyPressed_p_flips, keyPressed_p_twice _ hinv, ?_⟩
  · unfold ParentsMatchFlag at hinv
    rcases hinv with ⟨hb, h1, h2, h3⟩ | ⟨hb, h1, h2, h3⟩ <;> simp [hb, h1, h2, h3]
  · unfold ParentsMatchFlag at hinv
    rcases hinv with ⟨hb, h1, h2, h3⟩ | ⟨hb, h1, h2, h3⟩ <;> simp [hb, h1, h2, h3]
  · intro s k hk
    exact keyPressed_not_p k s (by simpa using hk)

/-- After `setup` and the keys `'p'`, `'2'`, `'f'` the flag is set and the
three orthographic cameras hang on `nodeSwarm.light`. -/
theorem p_toggles_ortho_camera_parents_witness :
    (afterKeys 1024 768 [('p'.toNat : Int), ('2'.toNat : Int), ('f'.toNat : Int)]).bCamParent
        = true ∧
    (afterKeys 1024 768 [('p'.toNat : Int), ('2'.toNat : Int), ('f'.toNat : Int)]).parentFront
        = some Node.nodeSwarmLight ∧
    (afterKeys 1024 768 [('p'.toNat : Int), ('2'.toNat : Int), ('f'.toNat : Int)]).parentTop
        = some Node.nodeSwarmLight ∧
    (afterKeys 1024 768 [('p'.toNat : Int), ('2'.toNat : Int), ('f'.toNat : Int)]).parentLeft
        = some Node.nodeSwarmLight :=
  have hb : (afterKeys 1024 768
      [('p'.toNat : Int), ('2'.toNat : Int), ('f'.toNat : Int)]).bCamParent = true := by decide
  ⟨hb, (p_toggles_ortho_camera_parents 1024 768
      [('p'.toNat : Int), ('2'.toNat : Int), ('f'.toNat : Int)]).1.mp hb⟩

end Advanced3d

namespace Advanced3d

/-! ## The calls of one frame -/

/-- In every state reachable by key presses `iMainCamera` indexes the arrays
`cameras` and `viewGrid`. -/
theorem afterKeys_iMainCamera_range (W H : Int) (keys : List Int) :
    0 ≤ (afterKeys W H keys).iMainCamera ∧ (afterKeys W H keys).iMainCamera < 4 := by
  unfold afterKeys
  generalize hs : setup W H = s0
  have h0 : 0 ≤ s0.iMainCamera ∧ s0.iMainCamera < 4 := by
    rw [← hs]; exact ⟨le_refl _, by show (0 : Int) < 4; decide⟩
  clear hs
  induction keys generalizing s0 with
  | nil => exact h0
  | cons k ks ih =>
    apply ih
    rw [keyPressed_iMainCamera]
    split_ifs <;> omega

theorem draw_defined (s : AppState) (h0 : 0 ≤ s.iMainCamera) (h4 : s.iMainCamera < 4) :
    ∃ i : Fin N_CAMERAS, (i.val : Int) = s.iMainCamera ∧
      cameras s.iMainCamera = some (cameraAt i) ∧
      draw s = some (drawWith s (s.viewGrid i) (cameraAt i)) := by
  have h : 0 ≤ s.iMainCamera ∧ s.iMainCamera < (N_CAMERAS : Int) := ⟨h0, by simpa using h4⟩
  refine ⟨⟨s.iMainCamera.toNat, by omega⟩, by simp; omega, ?_, ?_⟩
  · simp only [cameras, dif_pos h]
  · simp only [draw, viewGridAt, cameras, dif_pos h]
    rfl

theorem drawScene_frustum_ray (s : AppState) (c : Int) :
    (drawScene s c).countP isDrawBox = (if c ≠ 0 then 1 else 0) ∧
    frustumBounds (drawScene s c) =
      (if c ≠ 0 then [if s.iMainCamera = 0 then s.viewMain else s.viewGrid 0] else []) ∧
    (drawScene s c).countP isDrawRay = (if s.iMainCamera = 0 ∧ c ≠ 0 then 1 else 0) := by
  by_cases hc : c = 0 <;> by_cases hm : s.iMainCamera = 0 <;>
    simp [drawScene, hc, hm, frustumBounds, isDrawBox, isDrawRay]

theorem finRange_cameras : List.finRange N_CAMERAS = [0, 1, 2, 3] := by decide

theorem camIndex_vals :
    (((0 : Fin N_CAMERAS) : Nat) : Int) = 0 ∧ (((1 : Fin N_CAMERAS) : Nat) : Int) = 1 ∧
    (((2 : Fin N_CAMERAS) : Nat) : Int) = 2 ∧ (((3 : Fin N_CAMERAS) : Nat) : Int) = 3 :=
  ⟨rfl, rfl, rfl, rfl⟩

theorem frustumBounds_append (a b : List DrawCmd) :
    frustumBounds (a ++ b) = frustumBounds a ++ frustumBounds b := by
  simp [frustumBounds, List.filterMap_append]

theorem drawWith_frustum_ray (s : AppState) (sel : ofRectangle) (cam : Camera) :
    (drawWith s sel cam).countP isDrawBox = (if s.iMainCamera = 0 then 3 else 4) ∧
    frustumBounds (drawWith s sel cam) =
      (if s.iMainCamera = 0 then List.replicate 3 s.viewMain
       else List.replicate 4 (s.viewGrid 0)) ∧
    (drawWith s sel cam).countP isDrawRay = (if s.iMainCamera = 0 then 3 else 0) := by
  by_cases hm : s.iMainCamera = 0
  · refine ⟨?_, ?_, ?_⟩
    · simp only [drawWith, finRange_cameras, List.flatMap_cons, List.flatMap_nil,
        List.countP_append, drawScene_frustum_ray, List.map_cons, List.map_nil, hm, camIndex_vals]
      simp [isDrawBox, List.countP_cons]
    · simp only [drawWith, finRange_cameras, List.flatMap_cons, List.flatMap_nil,
        frustumBounds_append, drawScene_frustum_ray, List.map_cons, List.map_nil, hm,
        camIndex_vals]
      simp [frustumBounds]
    · simp only [drawWith, finRange_cameras, List.flatMap_cons, List.flatMap_nil,
        List.countP_append, drawScene_frustum_ray, List.map_cons, List.map_nil, hm, camIndex_vals]
      simp [isDrawRay, List.countP_cons]
  · refine ⟨?_, ?_, ?_⟩
    · simp only [drawWith, finRange_cameras, List.flatMap_cons, List.flatMap_nil,
        List.countP_append, drawScene_frustum_ray, List.map_cons, List.map_nil, camIndex_vals]
      simp [isDrawBox, List.countP_cons, hm]
    · simp only [drawWith, finRange_cameras, List.flatMap_cons, List.flatMap_nil,
        frustumBounds_append, drawScene_frustum_ray, List.map_cons, List.map_nil,
        camIndex_vals]
      simp [frustumBounds, hm]
    · simp only [drawWith, finRange_cameras, List.flatMap_cons, List.flatMap_nil,
        List.countP_append, drawScene_frustum_ray, List.map_cons, List.map_nil, camIndex_vals]
      simp [isDrawRay, List.countP_cons, hm]

/-- Claim C6: in a state whose `iMainCamera` indexes the four cameras (every
state reachable from `setup` by key presses), one call of `draw()` calls
`drawScene` exactly five times, once for the main viewport with
`cameraIndex = iMainCamera` and once for each grid cell `i = 0..3` with
`cameraIndex = i`; `drawScene(cameraIndex)` draws the EasyCam frustum preview
iff `cameraIndex != 0`, using `viewMain` as bounds when `iMainCamera == 0` and
`viewGrid[0]` otherwise, and draws the mouse ray iff `iMainCamera == 0` and
`cameraIndex != 0`.  So neither is drawn in a view rendered through
`camEasyCam`, the frustum is drawn 3 times per frame when `iMainCamera == 0`
and 4 times otherwise, and the ray 3 times per frame when `iMainCamera == 0`
and never otherwise. -/
theorem draw_scene_calls (s : AppState) (h0 : 0 ≤ s.iMainCamera)
    (h4 : s.iMainCamera < (N_CAMERAS : Int)) :
    ∃ (t : List DrawCmd) (camMain : Camera),
      draw s = some t ∧ cameras s.iMainCamera = some camMain ∧
      sceneCalls t = [s.iMainCamera, 0, 1, 2, 3] ∧
      viewCalls t =
        [(camMain, s.viewMain, s.iMainCamera),
         (Camera.camEasyCam, s.viewGrid 0, 0), (Camera.camFront, s.viewGrid 1, 1),
         (Camera.camTop, s.viewGrid 2, 2), (Camera.camLeft, s.viewGrid 3, 3)] ∧
      (∀ c : Int,
        (drawScene s c).countP isDrawBox = (if c ≠ 0 then 1 else 0) ∧
        frustumBounds (drawScene s c) =
          (if c ≠ 0 then [if s.iMainCamera = 0 then s.viewMain else s.viewGrid 0] else []) ∧
        (drawScene s c).countP isDrawRay = (if s.iMainCamera = 0 ∧ c ≠ 0 then 1 else 0)) ∧
      (∀ c : Int, cameras c = some Camera.camEasyCam →
        (drawScene s c).countP isDrawBox = 0 ∧ (drawScene s c).countP isDrawRay = 0) ∧
      t.countP isDrawBox = (if s.iMainCamera = 0 then 3 else 4) ∧
      frustumBounds t =
        (if s.iMainCamera = 0 then List.replicate 3 s.viewMain
         else List.replicate 4 (s.viewGrid 0)) ∧
      t.countP isDrawRay = (if s.iMainCamera = 0 then 3 else 0) := by
  obtain ⟨i, hi, hcam, hd⟩ := draw_defined s h0 (by simpa using h4)
  have hE : ∀ c : Int, cameras c = some Camera.camEasyCam → c = 0 := by
    intro c hc
    by_cases h : 0 ≤ c ∧ c < 4
    · obtain ⟨c0, c4⟩ := h
      interval_cases c
      · rfl
      · exact absurd hc (by decide)
      · exact absurd hc (by decide)
      · exact absurd hc (by decide)
    · have h2 : ¬ (0 ≤ c ∧ c < (N_CAMERAS : Int)) := by simpa using h
      rw [cameras, dif_neg h2] at hc
      exact absurd hc (by simp)
  refine ⟨_, cameraAt i, hd, hcam, ?_, ?_, drawScene_frustum_ray s, ?_, ?_⟩
  · obtain ⟨im, b, p1, p2, p3, p4, vm, vg, ft⟩ := s
    simp only at hi
    subst hi
    fin_cases i <;> rfl
  · obtain ⟨im, b, p1, p2, p3, p4, vm, vg, ft⟩ := s
    simp only at hi
    subst hi
    fin_cases i <;> rfl
  · intro c hc
    rw [hE c hc]
    exact ⟨(drawScene_frustum_ray s 0).1, by
      have := (drawScene_frustum_ray s 0).2.2
      simpa using this⟩
  · exact drawWith_frustum_ray s _ _

/-- The frames drawn right after `setup` (EasyCam in the main view) and after
pressing `'2'` (front camera in the main view). -/
theorem draw_scene_calls_witness :
    (∃ t : List DrawCmd,
      draw (setup 1024 768) = some t ∧ sceneCalls t = [0, 0, 1, 2, 3] ∧
      t.countP isDrawBox = 3 ∧ t.countP isDrawRay = 3) ∧
    (∃ t : List DrawCmd,
      draw (afterKeys 1024 768 [('2'.toNat : Int)]) = some t ∧
      sceneCalls t = [1, 0, 1, 2, 3] ∧
      t.countP isDrawBox = 4 ∧ t.countP isDrawRay = 0) := by
  constructor
  · obtain ⟨t, _, h1, _, h3, _, _, _, h7, _, h9⟩ :=
      draw_scene_calls (setup 1024 768) (by decide) (by decide)
    exact ⟨t, h1, h3, h7, h9⟩
  · obtain ⟨t, _, h1, _, h3, _, _, _, h7, _, h9⟩ :=
      draw_scene_calls (afterKeys 1024 768 [('2'.toNat : Int)]) (by decide) (by decide)
    exact ⟨t, h1, h3, h7, h9⟩

end Advanced3d

/-! # Theorems: vboExample -/

namespace VboExample

/-! ## Vertices from the image -/

/-- The mesh of the 21 by 21 image of full alpha: four cells, 24 vertices. -/
theorem setup_flatImage_vertices :
    (setup (flatImage 255) false).mesh.vertices.length = 24 ∧
    (setup (flatImage 255) false).mesh.texCoords.take 6 =
      [(0, 0), (10, 0), (10, 10), (0, 0), (10, 10), (0, 10)] ∧
    (setup (flatImage 255) false).mesh.vertices.take 3 =
      [(-21 / 2, -21 / 2, 480), (-1 / 2, -21 / 2, 480), (-1 / 2, -1 / 2, 480)] := by
  refine ⟨?_, ?_, ?_⟩
  · simp [setup, colLoop, rowLoop, flatImage, skip, cellBody, cellAccepted, getVertexFromImg,
      addFace4, addFace, addVertex, addTexCoords4, addTexCoords, addTexCoord, ofMap,
      normalizeIf]
  · simp [setup, colLoop, rowLoop, flatImage, skip, cellBody, cellAccepted, getVertexFromImg,
      addFace4, addFace, addVertex, addTexCoords4, addTexCoords, addTexCoord, ofMap,
      normalizeIf]
  · simp [setup, colLoop, rowLoop, flatImage, skip, cellBody, cellAccepted, getVertexFromImg,
      addFace4, addFace, addVertex, addTexCoords4, addTexCoords, addTexCoord, ofMap,
      normalizeIf]
    norm_num

end VboExample
